import Mathlib

/-!
Verification development for the certificate composition and batch export code
of the aikaryashala/certificates repository.

The Text Fitting Engine, Composer and Batch Export Orchestrator are shallowly
embedded below. Canvas text measurement (`ctx.measureText(text).width` under a
font of a given pixel size) is abstracted as a function
`measure : String -> Nat -> Nat`; everything else follows the source:

* `shrinkLoop` embeds the `while (!fits(text, size) && size > floor) size -= step`
  loops of certificate-renderer.js.
* `splitWords` embeds JavaScript `text.split(' ')`.
* `wrapAux` / `greedyWrap` embed the greedy word-wrap loops.
* `fitCertName` embeds the certificate name block fitting (threshold 19,
  start 200, min 120, step 5, max width 2400, per-line floor 80).  The source
  declares `const forceMultiLineName` and reassigns it on the fallback path,
  which throws a TypeError at run time; this is modelled as `Except.error ()`.
* `fitCardName` embeds the ID-card name block fitting (threshold 15, start 55,
  min 30, step 2, max width 440 = cardW - 60, per-line floor 16).
-/

/-- Bounded shrink loop. `fuel` bounds the number of iterations; it is an
artifact making the recursion structural. With `1 ≤ step` and `fuel ≥ size`
the loop always terminates before the fuel runs out, so the semantics match
the source loop `while (!fits(size) && size > floor) size -= step`. -/
def shrinkIter (fitsAt : Nat → Bool) (floor step : Nat) : Nat → Nat → Nat
  | size, 0 => size
  | size, fuel + 1 =>
    if fitsAt size then size
    else if floor < size then shrinkIter fitsAt floor step (size - step) fuel
    else size

/-- The source shrink loop: start at `size`, decrement by `step` while the text
does not fit and the size is above `floor`. -/
def shrinkLoop (fitsAt : Nat → Bool) (floor step size : Nat) : Nat :=
  shrinkIter fitsAt floor step size size

/-- JavaScript `text.split(' ')` over the character list: `acc` is the current
chunk, reversed. -/
def splitWordsAux : List Char → List Char → List String
  | [], acc => [String.mk acc.reverse]
  | c :: cs, acc =>
    if c = ' ' then String.mk acc.reverse :: splitWordsAux cs []
    else splitWordsAux cs (c :: acc)

/-- JavaScript `text.split(' ')`. -/
def splitWords (s : String) : List String :=
  splitWordsAux s.data []

/-- Greedy word-wrap loop body: accumulate `w` onto `currentLine` while the
test line fits; on overflow close the current line and start a new one with
the overflowing word. The first word of a line is never itself tested. -/
def wrapAux (fits : String → Bool) : String → List String → List String
  | currentLine, [] => [currentLine]
  | currentLine, w :: ws =>
    if fits (currentLine ++ " " ++ w) then wrapAux fits (currentLine ++ " " ++ w) ws
    else currentLine :: wrapAux fits w ws

/-- Greedy word-wrap: split on single spaces, seed the current line with the
first word, then run the accumulation loop. -/
def greedyWrap (fits : String → Bool) (text : String) : List String :=
  match splitWords text with
  | [] => []
  | w :: ws => wrapAux fits w ws

/-- `nameFits` of the certificate name block: measured width at `size` is at
most `maxNameWidth = 2400`. -/
def certFits (measure : String → Nat → Nat) (t : String) (s : Nat) : Bool :=
  decide (measure t s ≤ 2400)

/-- Multi-line font size for the certificate name block: 120 for names longer
than 25 characters, else 150. -/
def certWrapSize (nameText : String) : Nat :=
  if 25 < nameText.length then 120 else 150

/-- Multi-line rendering of the certificate name block: greedy wrap at
`certWrapSize`, then each line is independently re-shrunk (floor 80, step 5).
Each returned pair is a line together with its resolved font size. -/
def certMultiLines (measure : String → Nat → Nat) (nameText : String) :
    List (String × Nat) :=
  (greedyWrap (fun t => certFits measure t (certWrapSize nameText)) nameText).map
    (fun line => (line, shrinkLoop (certFits measure line) 80 5 (certWrapSize nameText)))

/-- Certificate name block fitting. Names of more than 19 characters go
straight to the multi-line path. Otherwise a single-line fit is attempted by
shrinking from 200 to at most 120 in steps of 5; if the name fits at the
resulting size it is drawn as one line. If it still does not fit, the source
executes `forceMultiLineName = true` on a `const` binding, which throws a
TypeError and aborts the render; this is the `Except.error ()` case. -/
def fitCertName (measure : String → Nat → Nat) (nameText : String) :
    Except Unit (List (String × Nat)) :=
  if 19 < nameText.length then Except.ok (certMultiLines measure nameText)
  else
    let size := shrinkLoop (certFits measure nameText) 120 5 200
    if certFits measure nameText size then Except.ok [(nameText, size)]
    else Except.error ()

/-- `fits` of the ID-card name block: measured width at `size` is at most
`maxCardNameWidth = cardW - 60 = 440`. -/
def cardFits (measure : String → Nat → Nat) (t : String) (s : Nat) : Bool :=
  decide (measure t s ≤ 440)

/-- Multi-line font size for the card name block: 26 for names longer than 25
characters, else 30. -/
def cardWrapSize (fullname : String) : Nat :=
  if 25 < fullname.length then 26 else 30

/-- Multi-line rendering of the card name block: greedy wrap at
`cardWrapSize`, then each line independently re-shrunk (floor 16, step 2). -/
def cardMultiLines (measure : String → Nat → Nat) (fullname : String) :
    List (String × Nat) :=
  (greedyWrap (fun t => cardFits measure t (cardWrapSize fullname)) fullname).map
    (fun line => (line, shrinkLoop (cardFits measure line) 16 2 (cardWrapSize fullname)))

/-- ID-card name block fitting. Multi-line is forced for names of more than 15
characters; otherwise a single-line fit is attempted by shrinking from 55
(floor 30, step 2) and used when it fits. The fallback to multi-line works
here (no const reassignment in this block). -/
def fitCardName (measure : String → Nat → Nat) (fullname : String) :
    List (String × Nat) :=
  let best := if 15 < fullname.length then 55
              else shrinkLoop (cardFits measure fullname) 30 2 55
  if fullname.length ≤ 15 ∧ cardFits measure fullname best = true then
    [(fullname, best)]
  else cardMultiLines measure fullname

/-- JavaScript `text.toUpperCase()`: uppercase each character (structural
version of `String.toUpper`, which maps `Char.toUpper` over the string). -/
def upperAscii (s : String) : String :=
  String.mk (s.data.map Char.toUpper)

/-- Join a list of lines with single spaces (used to state that the wrap is a
partition of the input words). -/
def joinSpace : List String → String
  | [] => ""
  | [a] => a
  | a :: rest => a ++ " " ++ joinSpace rest

/-- A linear width model used for concrete evaluations: width is
`length * size`. -/
def lenMeasure (t : String) (s : Nat) : Nat := t.length * s

/-- A width model with wide glyphs: width is `2 * length * size`. -/
def wideMeasure (t : String) (s : Nat) : Nat := t.length * s * 2

/-- A width model in which every text fits at every size. -/
def zeroMeasure (_ : String) (_ : Nat) : Nat := 0

/-- Certificate language. -/
inductive Lang
  | en
  | te
deriving DecidableEq

/-- A parsed student record (the fields of `parseStudent`'s result that the
orchestrator and renderer consume). -/
structure Student where
  student_id : String
  student_name : String
  telugu_name : String
deriving DecidableEq

/-- One CSV row of the batch, abstracted: `parsed` is the result of the
external `parseStudent` (none when no id column resolves), and `photo` is the
result of the external `loadPhotoAsBase64` photo resolver (none when every
filename probe fails). -/
structure Row where
  parsed : Option Student
  photo : Option String
deriving DecidableEq

/-- The two orchestrator options read from the admin form. -/
structure Opts where
  generateTelugu : Bool
  skipMissing : Bool
deriving DecidableEq

/-- A row survives the `if (!student || !student.student_name)` validity check:
it parsed and its name is non-empty (the empty string is falsy in JS). -/
def rowValid (row : Row) : Bool :=
  match row.parsed with
  | none => false
  | some s => decide (s.student_name ≠ "")

/-- Student id of a row (empty when the row did not parse). -/
def rowId (row : Row) : String :=
  match row.parsed with
  | none => ""
  | some s => s.student_id

/-- The English page captured for a row. -/
def pageOf (row : Row) : String × Lang := (rowId row, Lang.en)

/-- Cooperative cancellation: the flag is sampled at a sequence of numbered
checkpoints (loop-top check, pre-Telugu check, final save check). A value
`some j` means `cancelGeneration` set the flag just before checkpoint `j`, so
every checkpoint from `j` on observes it; `none` means it is never set. -/
def observed (cancelAt : Option Nat) (t : Nat) : Bool :=
  match cancelAt with
  | none => false
  | some j => decide (j ≤ t)

/-- Mutable loop state of `generateBatchPDF`: captured pages in order, the
success and skip counters, the checkpoint counter, and whether a cancellation
was observed (the `break` at a cancel check was taken). -/
structure BatchState where
  pages : List (String × Lang)
  successCount : Nat
  skipCount : Nat
  tick : Nat
  cancelled : Bool
deriving DecidableEq

/-- The per-record loop of `generateBatchPDF`. Each iteration: cancel check
(break when observed); validity check (skip invalid rows); photo resolution
(skip when missing and `skipMissing`, otherwise throw, which surfaces as the
`some errorMessage` component); render the English certificate with
`await renderCertificate(...)` - `render` is the outcome of that call, and an
error (the renderer can throw, see `fitCertName` and `compose`) propagates to
the outer catch, aborting the loop before the page is captured; on success
capture the page; optionally check cancellation again and render the Telugu
page (again fallibly) when `generateTelugu` and the record has a Telugu name;
count the success. -/
def processRows (opts : Opts) (cancelAt : Option Nat)
    (render : Student → Lang → Except String Unit) :
    List Row → BatchState → BatchState × Option String
  | [], s => (s, none)
  | row :: rest, s =>
    if observed cancelAt s.tick then
      ({ s with cancelled := true, tick := s.tick + 1 }, none)
    else
      match row.parsed with
      | none =>
        processRows opts cancelAt render rest
          { s with skipCount := s.skipCount + 1, tick := s.tick + 1 }
      | some student =>
        if student.student_name = "" then
          processRows opts cancelAt render rest
            { s with skipCount := s.skipCount + 1, tick := s.tick + 1 }
        else
          match row.photo with
          | none =>
            if opts.skipMissing then
              processRows opts cancelAt render rest
                { s with skipCount := s.skipCount + 1, tick := s.tick + 1 }
            else
              ({ s with tick := s.tick + 1 },
               some ("Photo not found for " ++ student.student_id))
          | some _ =>
            match render student Lang.en with
            | Except.error e => ({ s with tick := s.tick + 1 }, some e)
            | Except.ok _ =>
              let s1 : BatchState :=
                { s with
                  tick := s.tick + 1
                  pages := s.pages ++ [(student.student_id, Lang.en)] }
              if opts.generateTelugu ∧ student.telugu_name ≠ "" then
                if observed cancelAt s1.tick then
                  ({ s1 with cancelled := true, tick := s1.tick + 1 }, none)
                else
                  match render student Lang.te with
                  | Except.error e => ({ s1 with tick := s1.tick + 1 }, some e)
                  | Except.ok _ =>
                    processRows opts cancelAt render rest
                      { s1 with
                        tick := s1.tick + 1
                        pages := s1.pages ++ [(student.student_id, Lang.te)]
                        successCount := s1.successCount + 1 }
              else
                processRows opts cancelAt render rest
                  { s1 with successCount := s1.successCount + 1 }

/-- Outcome of one `generateBatchPDF` run. `errored` is the message the
`catch` block logs when the body throws; `saved` is the document passed to
`pdf.save` (none when the save guard `!cancelRequested && successCount > 0`
fails or the body threw); `finalTick` is the checkpoint number of the save
guard. -/
structure RunResult where
  pages : List (String × Lang)
  successCount : Nat
  skipCount : Nat
  cancelled : Bool
  errored : Option String
  saved : Option (List (String × Lang))
  finalTick : Nat
deriving DecidableEq

/-- Initial loop state. -/
def initialState : BatchState :=
  { pages := [], successCount := 0, skipCount := 0, tick := 0, cancelled := false }

/-- The batch orchestrator `generateBatchPDF` (minus DOM/progress side
effects): throw on an empty batch range, run the per-record loop (`render` is
the fallible outcome of each `await renderCertificate(...)` call), then save
the assembled document only when no cancellation was requested and at least
one page succeeded. A throw anywhere in the loop (missing photo with
`skipMissing` off, or a composition abort) reaches the catch block: the run
reports the error and saves nothing. -/
def generateBatchPDF (opts : Opts) (cancelAt : Option Nat)
    (render : Student → Lang → Except String Unit) (batchData : List Row) :
    RunResult :=
  if batchData.length = 0 then
    { pages := [], successCount := 0, skipCount := 0, cancelled := false,
      errored := some "No students in the specified range", saved := none,
      finalTick := 0 }
  else
    match processRows opts cancelAt render batchData initialState with
    | (s, some e) =>
      { pages := s.pages, successCount := s.successCount, skipCount := s.skipCount,
        cancelled := s.cancelled, errored := some e, saved := none,
        finalTick := s.tick }
    | (s, none) =>
      { pages := s.pages, successCount := s.successCount, skipCount := s.skipCount,
        cancelled := s.cancelled, errored := none,
        saved := if observed cancelAt s.tick = false ∧ 0 < s.successCount
                 then some s.pages else none,
        finalTick := s.tick }

/-- The abstract states of the spec's orchestrator state machine. -/
inductive RunStatus
  | completed
  | cancelled
  | failed
deriving DecidableEq

/-- The state a run ends in, read off the code's control flow: the `catch`
block ran (an error was thrown) means failed; a cancel check broke the loop
means cancelled; otherwise the run completed normally. -/
def RunResult.status (r : RunResult) : RunStatus :=
  if r.errored.isSome then RunStatus.failed
  else if r.cancelled then RunStatus.cancelled
  else RunStatus.completed

/-- The in-flight guard and finally-block of `generateBatchPDF`: a click while
`isGenerating` is a no-op (`if (isGenerating) return`); otherwise the run
executes and the `finally` block clears the flag on every exit path. The first
component is the value of `isGenerating` afterwards. -/
def startGenerate (isGenerating : Bool) (opts : Opts) (cancelAt : Option Nat)
    (render : Student → Lang → Except String Unit) (batchData : List Row) :
    Bool × Option RunResult :=
  if isGenerating then (isGenerating, none)
  else (false, some (generateBatchPDF opts cancelAt render batchData))

/-- Outcome of the QR sub-element of the ID card: the library produced an
`<img>` whose load succeeds, an `<img>` whose load fails, only a `<canvas>`
fallback, or neither. -/
inductive QrOutcome
  | imgOk
  | imgFails
  | canvasFallback
  | missing
deriving DecidableEq

/-- The asset environment of one composition: whether the signature image
load succeeds, whether the recipient photo load succeeds, and the QR
outcome. -/
structure ComposeEnv where
  sigLoads : Bool
  photoLoads : Bool
  qr : QrOutcome
deriving DecidableEq

/-- The fully drawn composite, reduced to the claim-relevant content: the
identifier, the fitted name lines of the certificate and card blocks, and
which optional sub-elements were actually drawn. -/
structure Surface where
  certId : String
  nameLines : List (String × Nat)
  cardLines : List (String × Nat)
  sigDrawn : Bool
  photoDrawn : Bool
  qrDrawn : Bool
  lang : Lang
deriving DecidableEq

/-- The QR drawing step of `renderCertificate`: an `<img>` element is loaded
with a bare `await loadImage(qrImg.src)` - a rejection is NOT caught and
propagates out of `renderCertificate`; the `<canvas>` fallback and the
missing-element case silently draw or skip the code. -/
def qrImage : QrOutcome → Except String Bool
  | QrOutcome.imgOk => Except.ok true
  | QrOutcome.imgFails => Except.error "qr image load failed"
  | QrOutcome.canvasFallback => Except.ok true
  | QrOutcome.missing => Except.ok false

/-- The composer `renderCertificate(user, photoBase64, lang)`. The name block
fitting runs first (and can throw, see `fitCertName`); the signature and photo
loads are wrapped in try/catch so their failures only clear the corresponding
sub-element; the QR image load is not wrapped and its failure aborts the
whole composition. -/
def compose (measure : String → Nat → Nat) (env : ComposeEnv) (user : Student)
    (lang : Lang) : Except String Surface :=
  match fitCertName measure (upperAscii user.student_name) with
  | Except.error _ => Except.error "TypeError: assignment to constant variable"
  | Except.ok nameLines =>
    match qrImage env.qr with
    | Except.error e => Except.error e
    | Except.ok qrDrawn =>
      Except.ok
        { certId := user.student_id
          nameLines := nameLines
          cardLines := fitCardName measure user.student_name
          sigDrawn := env.sigLoads
          photoDrawn := env.photoLoads
          qrDrawn := qrDrawn
          lang := lang }

/-- The renderer as the orchestrator sees it: one `await renderCertificate`
call is one `compose` run under the given width model and asset environment;
the orchestrator only observes success or the thrown message. -/
def renderOf (measure : String → Nat → Nat) (env : ComposeEnv) :
    Student → Lang → Except String Unit :=
  fun student lang =>
    match compose measure env student lang with
    | Except.ok _ => Except.ok ()
    | Except.error e => Except.error e

/-- A render oracle in which every composition call succeeds. -/
def renderAlways : Student → Lang → Except String Unit :=
  fun _ _ => Except.ok ()

/-- Concrete student used for witnesses: the short-name scenario of the spec. -/
def studentShort : Student :=
  { student_id := "AIK24B21A42C7", student_name := "Kavuri Suhitha", telugu_name := "" }

/-- Asset environment where only the QR image element fails to load. -/
def envQrFail : ComposeEnv :=
  { sigLoads := true, photoLoads := true, qr := QrOutcome.imgFails }

/-- Asset environment where signature and photo both fail and no QR element
was produced. -/
def envNoAssets : ComposeEnv :=
  { sigLoads := false, photoLoads := false, qr := QrOutcome.missing }

/-- Orchestrator options: English only, skip on missing photo. -/
def optsEnSkip : Opts := { generateTelugu := false, skipMissing := true }

/-- A valid row with a resolvable photo. -/
def mkRow (i : String) : Row :=
  { parsed := some { student_id := i, student_name := "STUDENT " ++ i, telugu_name := "" },
    photo := some "data:image/jpeg;base64,x" }

/-- A valid row whose photo cannot be resolved. -/
def mkRowNoPhoto (i : String) : Row :=
  { parsed := some { student_id := i, student_name := "STUDENT " ++ i, telugu_name := "" },
    photo := none }

/-- Three-record batch with the middle photo missing (the spec's batch
scenario). -/
def rowsThree : List Row := [mkRow "AIK1", mkRowNoPhoto "AIK2", mkRow "AIK3"]

/-- Two valid records, both with photos. -/
def rowsTwo : List Row := [mkRow "AIK1", mkRow "AIK2"]

/-- A single row that fails the validity check. -/
def rowsInvalid : List Row := [{ parsed := none, photo := none }]

theorem shrinkIter_at_floor (fitsAt : Nat → Bool) (floor step : Nat) :
    ∀ fuel, shrinkIter fitsAt floor step floor fuel = floor := by
  intro fuel
  cases fuel with
  | zero => rfl
  | succ m =>
    by_cases h : fitsAt floor = true
    · simp [shrinkIter, h]
    · simp [shrinkIter, h]

theorem shrinkIter_fits (fitsAt : Nat → Bool) (floor step : Nat) (hstep : 1 ≤ step)
    (mono : ∀ a b, a ≤ b → fitsAt b = true → fitsAt a = true)
    (hfloor : fitsAt floor = true) :
    ∀ fuel size, size ≤ fuel →
      fitsAt (shrinkIter fitsAt floor step size fuel) = true := by
  intro fuel
  induction fuel with
  | zero =>
    intro size hsz
    have hz : size = 0 := Nat.le_zero.mp hsz
    subst hz
    exact mono 0 floor (Nat.zero_le _) hfloor
  | succ n ih =>
    intro size hsz
    simp only [shrinkIter]
    by_cases h1 : fitsAt size = true
    · rw [if_pos h1]; exact h1
    · rw [if_neg h1]
      by_cases h2 : floor < size
      · rw [if_pos h2]
        exact ih _ (by omega)
      · rw [if_neg h2]
        exact absurd (mono size floor (by omega) hfloor) h1

theorem shrinkIter_grid (fitsAt : Nat → Bool) (floor step : Nat) (hstep : 1 ≤ step) :
    ∀ n fuel, floor + step * n ≤ fuel →
      fitsAt (shrinkIter fitsAt floor step (floor + step * n) fuel) = true ∨
      (shrinkIter fitsAt floor step (floor + step * n) fuel = floor ∧
        fitsAt floor = false) := by
  intro n
  induction n with
  | zero =>
    intro fuel hf
    simp only [Nat.mul_zero, Nat.add_zero]
    rw [shrinkIter_at_floor]
    by_cases h : fitsAt floor = true
    · exact Or.inl h
    · exact Or.inr ⟨rfl, by simpa using h⟩
  | succ n ih =>
    intro fuel hf
    have hstepn : 1 * 1 ≤ step * (n + 1) := Nat.mul_le_mul hstep (by omega)
    have hlt : floor < floor + step * (n + 1) := by omega
    cases fuel with
    | zero => omega
    | succ m =>
      simp only [shrinkIter]
      by_cases h : fitsAt (floor + step * (n + 1)) = true
      · rw [if_pos h]
        exact Or.inl h
      · rw [if_neg h, if_pos hlt]
        have hsub : floor + step * (n + 1) - step = floor + step * n := by
          have hmul : step * (n + 1) = step * n + step := by ring
          omega
        rw [hsub]
        refine ih m ?_
        have hmul : step * (n + 1) = step * n + step := by ring
        omega

theorem shrinkLoop_of_fits (fitsAt : Nat → Bool) (floor step size : Nat)
    (h : fitsAt size = true) : shrinkLoop fitsAt floor step size = size := by
  cases size with
  | zero => rfl
  | succ n => simp [shrinkLoop, shrinkIter, h]

theorem wrapAux_ne_nil (fits : String → Bool) :
    ∀ (ws : List String) (cur : String), wrapAux fits cur ws ≠ [] := by
  intro ws
  induction ws with
  | nil => intro cur; simp [wrapAux]
  | cons w rest ih =>
    intro cur
    simp only [wrapAux]
    by_cases h : fits (cur ++ " " ++ w) = true
    · rw [if_pos h]; exact ih (cur ++ " " ++ w)
    · rw [if_neg h]; simp

theorem wrapAux_mem (fits : String → Bool) (W : List String) :
    ∀ (ws : List String) (cur : String),
      (fits cur = true ∨ cur ∈ W) → (∀ w ∈ ws, w ∈ W) →
      ∀ l ∈ wrapAux fits cur ws, fits l = true ∨ l ∈ W := by
  intro ws
  induction ws with
  | nil =>
    intro cur hcur _ l hl
    simp only [wrapAux, List.mem_singleton] at hl
    exact hl ▸ hcur
  | cons w rest ih =>
    intro cur hcur hws l hl
    simp only [wrapAux] at hl
    by_cases h : fits (cur ++ " " ++ w) = true
    · rw [if_pos h] at hl
      exact ih (cur ++ " " ++ w) (Or.inl h)
        (fun x hx => hws x (List.mem_cons_of_mem _ hx)) l hl
    · rw [if_neg h] at hl
      rcases List.mem_cons.mp hl with heq | hl2
      · exact heq ▸ hcur
      · exact ih w (Or.inr (hws w (List.mem_cons_self w rest)))
          (fun x hx => hws x (List.mem_cons_of_mem _ hx)) l hl2

theorem joinSpace_cons (x : String) (l : List String) (h : l ≠ []) :
    joinSpace (x :: l) = x ++ " " ++ joinSpace l := by
  cases l with
  | nil => exact absurd rfl h
  | cons y ys => rfl

theorem joinSpace_glue (a b : String) (l : List String) :
    joinSpace ((a ++ " " ++ b) :: l) = a ++ " " ++ joinSpace (b :: l) := by
  cases l with
  | nil => rfl
  | cons y ys =>
    rw [joinSpace_cons (a ++ " " ++ b) (y :: ys) (by simp),
      joinSpace_cons b (y :: ys) (by simp)]
    simp [String.append_assoc]

theorem joinSpace_wrapAux (fits : String → Bool) :
    ∀ (ws : List String) (cur : String),
      joinSpace (wrapAux fits cur ws) = joinSpace (cur :: ws) := by
  intro ws
  induction ws with
  | nil => intro cur; rfl
  | cons w rest ih =>
    intro cur
    simp only [wrapAux]
    by_cases h : fits (cur ++ " " ++ w) = true
    · rw [if_pos h, ih (cur ++ " " ++ w)]
      exact joinSpace_glue cur w rest
    · rw [if_neg h, joinSpace_cons cur (wrapAux fits w rest) (wrapAux_ne_nil fits rest w),
        ih w, joinSpace_cons cur (w :: rest) (by simp)]

theorem wrapAux_length_two (fits : String → Bool) :
    ∀ (ws : List String) (cur : String), ws ≠ [] →
      fits (joinSpace (cur :: ws)) = false →
      2 ≤ (wrapAux fits cur ws).length := by
  intro ws
  induction ws with
  | nil => intro cur h; exact absurd rfl h
  | cons w rest ih =>
    intro cur _ hfull
    simp only [wrapAux]
    by_cases h : fits (cur ++ " " ++ w) = true
    · rw [if_pos h]
      cases rest with
      | nil =>
        exfalso
        have hj : joinSpace (cur :: [w]) = cur ++ " " ++ w := rfl
        rw [hj, h] at hfull
        exact Bool.noConfusion hfull
      | cons y ys =>
        refine ih (cur ++ " " ++ w) (by simp) ?_
        rw [joinSpace_glue]
        exact hfull
    · rw [if_neg h]
      have h1 : 0 < (wrapAux fits w rest).length :=
        List.length_pos.mpr (wrapAux_ne_nil fits rest w)
      simp only [List.length_cons]
      omega

theorem splitWordsAux_ne_nil : ∀ (cs acc : List Char), splitWordsAux cs acc ≠ [] := by
  intro cs
  induction cs with
  | nil => intro acc; simp [splitWordsAux]
  | cons c rest ih =>
    intro acc
    simp only [splitWordsAux]
    by_cases h : c = ' '
    · rw [if_pos h]; simp
    · rw [if_neg h]; exact ih (c :: acc)

theorem string_mk_append (a b : List Char) :
    String.mk a ++ String.mk b = String.mk (a ++ b) := rfl

theorem joinSpace_splitWordsAux :
    ∀ (cs acc : List Char),
      joinSpace (splitWordsAux cs acc) = String.mk acc.reverse ++ String.mk cs := by
  intro cs
  induction cs with
  | nil =>
    intro acc
    simp only [splitWordsAux, joinSpace]
    rw [string_mk_append]
    simp
  | cons c rest ih =>
    intro acc
    simp only [splitWordsAux]
    by_cases h : c = ' '
    · rw [if_pos h, joinSpace_cons _ _ (splitWordsAux_ne_nil rest []), ih []]
      have h2 : String.mk (List.reverse []) ++ String.mk rest = String.mk rest := rfl
      have h3 : (" " : String) ++ String.mk rest = String.mk (' ' :: rest) := rfl
      rw [h2, String.append_assoc, h3, h]
    · rw [if_neg h, ih (c :: acc), string_mk_append, string_mk_append]
      congr 1
      simp

theorem joinSpace_splitWords (s : String) : joinSpace (splitWords s) = s := by
  rw [splitWords, joinSpace_splitWordsAux]
  cases s with
  | mk data =>
    rw [string_mk_append]
    simp

theorem joinSpace_greedyWrap (fits : String → Bool) (text : String) :
    joinSpace (greedyWrap fits text) = text := by
  rw [greedyWrap]
  cases h : splitWords text with
  | nil => exact absurd h (splitWordsAux_ne_nil text.data [])
  | cons w ws =>
    rw [joinSpace_wrapAux, ← h, joinSpace_splitWords]

theorem observed_none (t : Nat) : observed none t = false := rfl

theorem processRows_none_cancelled (opts : Opts)
    (render : Student → Lang → Except String Unit) (rows : List Row) :
    ∀ s : BatchState, ((processRows opts none render rows s).1).cancelled = s.cancelled := by
  induction rows with
  | nil => intro s; rfl
  | cons row rest ih =>
    intro s
    obtain ⟨parsed, photo⟩ := row
    cases parsed with
    | none => simp [processRows, observed_none, ih]
    | some student =>
      by_cases hname : student.student_name = ""
      · simp [processRows, observed_none, hname, ih]
      · cases photo with
        | none =>
          by_cases hskip : opts.skipMissing = true
          · simp [processRows, observed_none, hname, hskip, ih]
          · simp [processRows, observed_none, hname, hskip]
        | some p =>
          cases hren : render student Lang.en with
          | error e => simp [processRows, observed_none, hname, hren]
          | ok u =>
            by_cases hte : opts.generateTelugu = true ∧ student.telugu_name ≠ ""
            · cases hrte : render student Lang.te with
              | error e => simp [processRows, observed_none, hname, hte, hren, hrte]
              | ok v => simp [processRows, observed_none, hname, hte, hren, hrte, ih]
            · simp [processRows, observed_none, hname, hte, hren, ih]

theorem processRows_success_le_pages (opts : Opts) (cancelAt : Option Nat)
    (render : Student → Lang → Except String Unit) (rows : List Row) :
    ∀ s : BatchState, s.successCount ≤ s.pages.length →
      ((processRows opts cancelAt render rows s).1).successCount ≤
        ((processRows opts cancelAt render rows s).1).pages.length := by
  induction rows with
  | nil => intro s h; exact h
  | cons row rest ih =>
    intro s h
    obtain ⟨parsed, photo⟩ := row
    by_cases hobs : observed cancelAt s.tick = true
    · simp only [processRows, if_pos hobs]
      exact h
    · cases parsed with
      | none =>
        simp only [processRows, if_neg hobs]
        exact ih _ h
      | some student =>
        by_cases hname : student.student_name = ""
        · simp only [processRows, if_neg hobs, if_pos hname]
          exact ih _ h
        · cases photo with
          | none =>
            by_cases hskip : opts.skipMissing = true
            · simp only [processRows, if_neg hobs, if_neg hname, hskip, if_pos rfl]
              exact ih _ h
            · simp only [processRows, if_neg hobs, if_neg hname, if_neg hskip]
              exact h
          | some p =>
            cases hren : render student Lang.en with
            | error e =>
              simp only [processRows, if_neg hobs, if_neg hname, hren]
              exact h
            | ok u =>
              by_cases hte : opts.generateTelugu = true ∧ student.telugu_name ≠ ""
              · simp only [processRows, if_neg hobs, if_neg hname, hren, if_pos hte]
                by_cases hobs2 : observed cancelAt (s.tick + 1) = true
                · simp only [if_pos hobs2]
                  simp only [List.length_append, List.length_cons, List.length_nil]
                  omega
                · simp only [if_neg hobs2]
                  cases hrte : render student Lang.te with
                  | error e =>
                    simp only [hrte]
                    simp only [List.length_append, List.length_cons, List.length_nil]
                    omega
                  | ok v =>
                    simp only [hrte]
                    refine ih _ ?_
                    simp only [List.length_append, List.length_cons, List.length_nil,
                      List.append_assoc]
                    omega
              · simp only [processRows, if_neg hobs, if_neg hname, hren, if_neg hte]
                refine ih _ ?_
                simp only [List.length_append, List.length_cons, List.length_nil]
                omega

theorem filter_isSome_isNone_length (rows : List Row) :
    (rows.filter (fun r => r.photo.isSome)).length +
      (rows.filter (fun r => r.photo.isNone)).length = rows.length := by
  induction rows with
  | nil => rfl
  | cons row rest ih =>
    obtain ⟨parsed, photo⟩ := row
    cases photo with
    | none => simp [List.filter_cons]; omega
    | some p => simp [List.filter_cons]; omega

theorem processRows_en_skip (render : Student → Lang → Except String Unit)
    (rows : List Row) :
    ∀ s : BatchState, (∀ r ∈ rows, rowValid r = true) →
      (∀ r ∈ rows, ∀ st, r.parsed = some st → render st Lang.en = Except.ok ()) →
      processRows optsEnSkip none render rows s =
        ({ pages := s.pages ++ (rows.filter (fun r => r.photo.isSome)).map pageOf,
           successCount := s.successCount + (rows.filter (fun r => r.photo.isSome)).length,
           skipCount := s.skipCount + (rows.filter (fun r => r.photo.isNone)).length,
           tick := s.tick + rows.length,
           cancelled := s.cancelled }, none) := by
  induction rows with
  | nil => intro s _ _; simp [processRows]
  | cons row rest ih =>
    intro s hv hr
    have hrow : rowValid row = true := hv row (List.mem_cons_self row rest)
    have hrest : ∀ r ∈ rest, rowValid r = true :=
      fun r hrr => hv r (List.mem_cons_of_mem _ hrr)
    have hrrest : ∀ r ∈ rest, ∀ st, r.parsed = some st →
        render st Lang.en = Except.ok () :=
      fun r hrr => hr r (List.mem_cons_of_mem _ hrr)
    obtain ⟨parsed, photo⟩ := row
    cases parsed with
    | none => simp [rowValid] at hrow
    | some student =>
      have hname : ¬ student.student_name = "" := by simpa [rowValid] using hrow
      have hren : render student Lang.en = Except.ok () :=
        hr _ (List.mem_cons_self _ rest) student rfl
      have hskip : optsEnSkip.skipMissing = true := rfl
      have hteF : optsEnSkip.generateTelugu = false := rfl
      cases photo with
      | none =>
        simp only [processRows, observed_none, hskip]
        simp [hname]
        rw [ih _ hrest hrrest]
        simp [List.filter_cons, Prod.mk.injEq, BatchState.mk.injEq]
        constructor <;> omega
      | some p =>
        simp only [processRows, observed_none, hteF, hren]
        simp [hname]
        rw [ih _ hrest hrrest]
        simp [List.filter_cons, Prod.mk.injEq, BatchState.mk.injEq, pageOf, rowId]
        constructor <;> omega

example : splitWords "VENKATA SATYA NARAYANA MURTHY" =
    ["VENKATA", "SATYA", "NARAYANA", "MURTHY"] := by decide

example :
    (generateBatchPDF optsEnSkip none renderAlways rowsThree).pages =
      [("AIK1", Lang.en), ("AIK3", Lang.en)] := rfl

example : (generateBatchPDF optsEnSkip none renderAlways rowsThree).saved =
    some [("AIK1", Lang.en), ("AIK3", Lang.en)] := rfl

example : (generateBatchPDF optsEnSkip (some 1) renderAlways rowsTwo).saved = none := rfl

example : (generateBatchPDF optsEnSkip (some 1) renderAlways rowsTwo).pages =
    [("AIK1", Lang.en)] := rfl

example : (generateBatchPDF optsEnSkip (some 1) renderAlways rowsTwo).finalTick = 2 := rfl

example : (generateBatchPDF optsEnSkip none renderAlways rowsInvalid).status =
    RunStatus.completed := rfl

example : (generateBatchPDF optsEnSkip none (renderOf lenMeasure envQrFail) rowsTwo).errored =
    some "qr image load failed" := rfl

example : (generateBatchPDF optsEnSkip none (renderOf lenMeasure envQrFail) rowsTwo).saved =
    none := rfl

example : compose lenMeasure envQrFail studentShort Lang.en =
    Except.error "qr image load failed" := rfl

example : fitCertName lenMeasure "KAVURI SUHITHA" =
    Except.ok [("KAVURI SUHITHA", 170)] := rfl

example : fitCertName lenMeasure "VENKATA SATYA NARAYANA MURTHY" =
    Except.ok [("VENKATA SATYA", 120), ("NARAYANA MURTHY", 120)] := rfl

example : fitCertName wideMeasure "AAAAAAAAA BBBBBBBBB" = Except.error () := rfl

example : fitCardName lenMeasure "KAVURI SUHITHA" = [("KAVURI SUHITHA", 31)] := by decide

theorem greedyWrap_length_two (fits : String → Bool) (text : String)
    (hwords : 2 ≤ (splitWords text).length) (hfull : fits text = false) :
    2 ≤ (greedyWrap fits text).length := by
  rw [greedyWrap]
  cases h : splitWords text with
  | nil => rw [h] at hwords; simp at hwords
  | cons w ws =>
    cases ws with
    | nil => rw [h] at hwords; simp at hwords
    | cons y ys =>
      refine wrapAux_length_two fits (y :: ys) w (by simp) ?_
      have hj : joinSpace (w :: y :: ys) = text := by rw [← h, joinSpace_splitWords]
      rw [hj, hfull]

theorem multiLines_invariant (fits : String → Nat → Bool) (text : String)
    (wrapSize floor step : Nat) (hstep : 1 ≤ step) (n : Nat)
    (hgrid : wrapSize = floor + step * n) (p : String × Nat)
    (hp : p ∈ (greedyWrap (fun t => fits t wrapSize) text).map
        (fun line => (line, shrinkLoop (fits line) floor step wrapSize))) :
    fits p.1 p.2 = true ∨ (p.1 ∈ splitWords text ∧ fits p.1 floor = false) := by
  rcases List.mem_map.mp hp with ⟨line, hline, rfl⟩
  have hWinv : fits line wrapSize = true ∨ line ∈ splitWords text := by
    rw [greedyWrap] at hline
    cases h : splitWords text with
    | nil => rw [h] at hline; simp at hline
    | cons w ws =>
      rw [h] at hline
      refine wrapAux_mem _ (w :: ws) ws w ?_ ?_ line hline
      · right; exact List.mem_cons_self w ws
      · intro x hx; exact List.mem_cons_of_mem _ hx
  rcases hWinv with hfit | hmem
  · left
    show fits line (shrinkLoop (fits line) floor step wrapSize) = true
    rw [shrinkLoop_of_fits _ _ _ _ hfit]
    exact hfit
  · have hgrid2 := shrinkIter_grid (fits line) floor step hstep n wrapSize
      (by rw [← hgrid])
    rw [← hgrid] at hgrid2
    rcases hgrid2 with h1 | ⟨_, h2⟩
    · exact Or.inl h1
    · exact Or.inr ⟨hmem, h2⟩

/-- Claim C10: the greedy word-wrap partitions the words of the name in order
without dropping, duplicating or reordering any word: joining the produced
lines of the certificate name block (and of the card name block) with single
spaces yields exactly the input string. -/
theorem wrap_partitions_words (measure : String → Nat → Nat)
    (nameText cardName : String) :
    joinSpace ((certMultiLines measure nameText).map Prod.fst) = nameText ∧
    joinSpace ((cardMultiLines measure cardName).map Prod.fst) = cardName := by
  constructor
  · rw [certMultiLines, List.map_map]
    have hcomp :
        (Prod.fst ∘ fun line =>
          (line, shrinkLoop (certFits measure line) 80 5 (certWrapSize nameText))) =
        id := rfl
    rw [hcomp, List.map_id]
    exact joinSpace_greedyWrap _ _
  · rw [cardMultiLines, List.map_map]
    have hcomp :
        (Prod.fst ∘ fun line =>
          (line, shrinkLoop (cardFits measure line) 16 2 (cardWrapSize cardName))) =
        id := rfl
    rw [hcomp, List.map_id]
    exact joinSpace_greedyWrap _ _

/-- Claim C5 (amended): a name longer than the threshold (19 for the
certificate block, 15 for the card block) always takes the multi-line path,
and the engine returns at least 2 lines whenever the name has at least two
space-separated words and its full text does not fit within the maximum width
at the multi-line wrap font size; a single-word name, or one whose full text
fits at the wrap size, yields a single line. -/
theorem long_names_wrap_multiline (measure : String → Nat → Nat)
    (nameText cardName : String) :
    (19 < nameText.length → 2 ≤ (splitWords nameText).length →
      certFits measure nameText (certWrapSize nameText) = false →
      ∃ ls, fitCertName measure nameText = Except.ok ls ∧ 2 ≤ ls.length) ∧
    (15 < cardName.length → 2 ≤ (splitWords cardName).length →
      cardFits measure cardName (cardWrapSize cardName) = false →
      2 ≤ (fitCardName measure cardName).length) := by
  constructor
  · intro h19 hwords hfull
    refine ⟨certMultiLines measure nameText, ?_, ?_⟩
    · simp only [fitCertName, if_pos h19]
    · rw [certMultiLines, List.length_map]
      exact greedyWrap_length_two _ _ hwords hfull
  · intro h15 hwords hfull
    have hcond : ¬ (cardName.length ≤ 15 ∧
        cardFits measure cardName
          (if 15 < cardName.length then 55
           else shrinkLoop (cardFits measure cardName) 30 2 55) = true) :=
      fun hc => absurd hc.1 (by omega)
    simp only [fitCardName]
    rw [if_neg hcond, cardMultiLines, List.length_map]
    exact greedyWrap_length_two _ _ hwords hfull

/-- Claim C5 counterexample: the claim as stated is false on the code. A
20-character single-word name takes the multi-line path but yields exactly one
line (certificate block); a 20-character multi-word name whose full text fits
at the reduced wrap size also yields one line; a 16-character single-word card
name yields one line on the card block. -/
theorem long_names_single_line_counterexample :
    (19 < ("AAAAAAAAAAAAAAAAAAAA" : String).length ∧
      fitCertName lenMeasure "AAAAAAAAAAAAAAAAAAAA" =
        Except.ok [("AAAAAAAAAAAAAAAAAAAA", 120)]) ∧
    (19 < ("AAAA BBBB CCCC DDDDD" : String).length ∧
      fitCertName zeroMeasure "AAAA BBBB CCCC DDDDD" =
        Except.ok [("AAAA BBBB CCCC DDDDD", 150)]) ∧
    (15 < ("BBBBBBBBBBBBBBBB" : String).length ∧
      fitCardName zeroMeasure "BBBBBBBBBBBBBBBB" = [("BBBBBBBBBBBBBBBB", 30)]) :=
  ⟨⟨by decide, rfl⟩, ⟨by decide, rfl⟩, ⟨by decide, rfl⟩⟩

/-- Claim C5 witness: a concrete 29-character four-word name under the linear
width model satisfies the amended hypotheses for both blocks. -/
theorem long_names_wrap_multiline_witness :
    (∃ ls, fitCertName lenMeasure "VENKATA SATYA NARAYANA MURTHY" = Except.ok ls ∧
      2 ≤ ls.length) ∧
    2 ≤ (fitCardName lenMeasure "VENKATA SATYA NARAYANA MURTHY").length :=
  ⟨(long_names_wrap_multiline lenMeasure "VENKATA SATYA NARAYANA MURTHY"
      "VENKATA SATYA NARAYANA MURTHY").1 (by decide) (by decide) (by decide),
   (long_names_wrap_multiline lenMeasure "VENKATA SATYA NARAYANA MURTHY"
      "VENKATA SATYA NARAYANA MURTHY").2 (by decide) (by decide) (by decide)⟩

/-- Claim C6: in every multi-line fit result, each returned line fits within
the maximum width at its resolved font size, except possibly a line that is a
single word of the input and that alone still exceeds the maximum width at the
minimum per-line font size (80 on the certificate block, 16 on the card
block). -/
theorem multiline_width_invariant (measure : String → Nat → Nat)
    (nameText cardName : String) :
    (∀ p ∈ certMultiLines measure nameText,
      certFits measure p.1 p.2 = true ∨
        (p.1 ∈ splitWords nameText ∧ certFits measure p.1 80 = false)) ∧
    (∀ p ∈ cardMultiLines measure cardName,
      cardFits measure p.1 p.2 = true ∨
        (p.1 ∈ splitWords cardName ∧ cardFits measure p.1 16 = false)) := by
  constructor
  · intro p hp
    refine multiLines_invariant (certFits measure) nameText (certWrapSize nameText)
      80 5 (by omega) (if 25 < nameText.length then 8 else 14) ?_ p hp
    by_cases hl : 25 < nameText.length <;> simp [certWrapSize, hl]
  · intro p hp
    refine multiLines_invariant (cardFits measure) cardName (cardWrapSize cardName)
      16 2 (by omega) (if 25 < cardName.length then 5 else 7) ?_ p hp
    by_cases hl : 25 < cardName.length <;> simp [cardWrapSize, hl]

/-- Claim C6 witness: a concrete line of a concrete multi-line result, with
the membership hypothesis discharged by evaluation. -/
theorem multiline_width_invariant_witness :
    certFits lenMeasure "VENKATA SATYA" 120 = true ∨
      ("VENKATA SATYA" ∈ splitWords "VENKATA SATYA NARAYANA MURTHY" ∧
        certFits lenMeasure "VENKATA SATYA" 80 = false) :=
  (multiline_width_invariant lenMeasure "VENKATA SATYA NARAYANA MURTHY"
    "VENKATA SATYA NARAYANA MURTHY").1 ("VENKATA SATYA", 120) (by decide)

/-- Claim C7: a name at or below the threshold (19 certificate, 15 card) whose
measured width fits the maximum width at the start size or at some size at or
above the minimum (under a width model monotone in the font size) is returned
as exactly one line. -/
theorem short_names_single_line (measure : String → Nat → Nat)
    (nameText cardName : String)
    (monoCert : ∀ a b, a ≤ b → measure nameText a ≤ measure nameText b)
    (monoCard : ∀ a b, a ≤ b → measure cardName a ≤ measure cardName b)
    (hlen : nameText.length ≤ 19) (hclen : cardName.length ≤ 15)
    (hfit : ∃ s, 120 ≤ s ∧ measure nameText s ≤ 2400)
    (hcfit : ∃ s, 30 ≤ s ∧ measure cardName s ≤ 440) :
    (∃ sz, fitCertName measure nameText = Except.ok [(nameText, sz)]) ∧
    (∃ sz, fitCardName measure cardName = [(cardName, sz)]) := by
  have hdcCert : ∀ a b, a ≤ b → certFits measure nameText b = true →
      certFits measure nameText a = true := by
    intro a b hab hb
    simp only [certFits, decide_eq_true_eq] at *
    exact le_trans (monoCert a b hab) hb
  have hdcCard : ∀ a b, a ≤ b → cardFits measure cardName b = true →
      cardFits measure cardName a = true := by
    intro a b hab hb
    simp only [cardFits, decide_eq_true_eq] at *
    exact le_trans (monoCard a b hab) hb
  have hfloorCert : certFits measure nameText 120 = true := by
    rcases hfit with ⟨s, hs, hw⟩
    exact hdcCert 120 s hs (by simpa [certFits] using hw)
  have hfloorCard : cardFits measure cardName 30 = true := by
    rcases hcfit with ⟨s, hs, hw⟩
    exact hdcCard 30 s hs (by simpa [cardFits] using hw)
  have hres : certFits measure nameText
      (shrinkLoop (certFits measure nameText) 120 5 200) = true :=
    shrinkIter_fits _ 120 5 (by omega) hdcCert hfloorCert 200 200 (le_refl _)
  have hresCard : cardFits measure cardName
      (shrinkLoop (cardFits measure cardName) 30 2 55) = true :=
    shrinkIter_fits _ 30 2 (by omega) hdcCard hfloorCard 55 55 (le_refl _)
  constructor
  · refine ⟨shrinkLoop (certFits measure nameText) 120 5 200, ?_⟩
    simp only [fitCertName]
    rw [if_neg (by omega), if_pos hres]
  · refine ⟨shrinkLoop (cardFits measure cardName) 30 2 55, ?_⟩
    simp only [fitCardName]
    rw [if_neg (show ¬ 15 < cardName.length by omega)]
    rw [if_pos ⟨by omega, hresCard⟩]

/-- Claim C7 witness: the 14-character scenario name under the linear width
model is returned as a single line by both blocks. -/
theorem short_names_single_line_witness :
    (∃ sz, fitCertName lenMeasure "KAVURI SUHITHA" = Except.ok [("KAVURI SUHITHA", sz)]) ∧
    (∃ sz, fitCardName lenMeasure "KAVURI SUHITHA" = [("KAVURI SUHITHA", sz)]) :=
  short_names_single_line lenMeasure "KAVURI SUHITHA" "KAVURI SUHITHA"
    (fun a b h => Nat.mul_le_mul_left _ h) (fun a b h => Nat.mul_le_mul_left _ h)
    (by decide) (by decide) ⟨120, by omega, by decide⟩ ⟨30, by omega, by decide⟩

/-- Claim C1: the claim is what the code intends but the code is wrong. A name
at or below the 19-character threshold whose rendering exceeds the maximum
width even at the minimum font size reaches the line
`forceMultiLineName = true`, an assignment to a `const` binding, which throws
a TypeError instead of falling back to greedy word-wrap: the fit aborts with
an error and no name block is rendered. -/
theorem const_reassignment_aborts_fit :
    ("AAAAAAAAA BBBBBBBBB" : String).length ≤ 19 ∧
    fitCertName wideMeasure "AAAAAAAAA BBBBBBBBB" = Except.error () :=
  ⟨by decide, rfl⟩

/-- Claim C2 counterexample: the claim as stated is false on the code. In an
environment where only the machine-readable code image fails to load (the
signature and photo both load), the composition aborts with an error instead
of degrading the QR sub-element. -/
theorem qr_load_failure_aborts_compose :
    compose lenMeasure envQrFail studentShort Lang.en =
      Except.error "qr image load failed" := rfl

/-- Claim C2 (amended): failure to load the signature image or the recipient
photo degrades only that sub-element and composition still completes; a
missing QR element also degrades silently; but a produced QR image element
whose load fails aborts the composition (its `await loadImage` is not wrapped
in try/catch). -/
theorem asset_failures_degrade_without_abort (measure : String → Nat → Nat)
    (env : ComposeEnv) (user : Student) (lang : Lang)
    (hqr : env.qr ≠ QrOutcome.imgFails)
    (hname : ∃ ls, fitCertName measure (upperAscii user.student_name) = Except.ok ls) :
    ∃ surf, compose measure env user lang = Except.ok surf ∧
      surf.sigDrawn = env.sigLoads ∧ surf.photoDrawn = env.photoLoads := by
  rcases hname with ⟨ls, hls⟩
  have hqr2 : ∃ b, qrImage env.qr = Except.ok b := by
    cases h : env.qr with
    | imgOk => exact ⟨true, rfl⟩
    | imgFails => exact absurd h hqr
    | canvasFallback => exact ⟨true, rfl⟩
    | missing => exact ⟨false, rfl⟩
  rcases hqr2 with ⟨b, hb⟩
  refine ⟨{ certId := user.student_id, nameLines := ls,
            cardLines := fitCardName measure user.student_name,
            sigDrawn := env.sigLoads, photoDrawn := env.photoLoads,
            qrDrawn := b, lang := lang }, ?_, rfl, rfl⟩
  simp only [compose, hls, hb]

/-- Claim C2 witness: with the signature and photo both failing and no QR
element, the composition still completes and only those sub-elements are
cleared. -/
theorem asset_failures_degrade_witness :
    ∃ surf, compose lenMeasure envNoAssets studentShort Lang.en = Except.ok surf ∧
      surf.sigDrawn = envNoAssets.sigLoads ∧ surf.photoDrawn = envNoAssets.photoLoads :=
  asset_failures_degrade_without_abort lenMeasure envNoAssets studentShort Lang.en
    (by decide) ⟨[("KAVURI SUHITHA", 170)], rfl⟩

/-- Claim C3: a cancellation signalled during the run (at or before the final
save checkpoint) means the orchestrator saves no document at all, regardless
of how many pages were already produced and whatever the outcome of each
composition call. -/
theorem cancellation_discards_document (opts : Opts)
    (render : Student → Lang → Except String Unit) (batchData : List Row) (j : Nat)
    (h : j ≤ (generateBatchPDF opts (some j) render batchData).finalTick) :
    (generateBatchPDF opts (some j) render batchData).saved = none := by
  by_cases hlen : batchData.length = 0
  · simp [generateBatchPDF, hlen]
  · rcases hps : processRows opts (some j) render batchData initialState with ⟨s, err⟩
    cases err with
    | some e => simp [generateBatchPDF, hlen, hps]
    | none =>
      simp only [generateBatchPDF, hlen, hps, if_neg, if_false] at h ⊢
      have hobs : observed (some j) s.tick = true := by
        simpa [observed] using h
      simp [hobs]

/-- Claim C3 witness: cancelling after the first of two records leaves one
produced page but no saved document. -/
theorem cancellation_discards_document_witness :
    (generateBatchPDF optsEnSkip (some 1) renderAlways rowsTwo).saved = none :=
  cancellation_discards_document optsEnSkip renderAlways rowsTwo 1 (by decide)

/-- Claim C4 counterexample: the claim as stated is false on the code. Two
valid records, both with resolvable photos (k = 0), under the width model and
asset environment in which every composition call aborts on the failed QR
image load: the run throws on the first record, produces 0 pages instead of
N - k = 2, and saves no document. -/
theorem batch_page_count_counterexample :
    (∀ r ∈ rowsTwo, rowValid r = true) ∧
    (rowsTwo.filter (fun r => r.photo.isNone)).length = 0 ∧
    rowsTwo.length = 2 ∧
    ((generateBatchPDF optsEnSkip none (renderOf lenMeasure envQrFail) rowsTwo).pages).length ≠
      rowsTwo.length - (rowsTwo.filter (fun r => r.photo.isNone)).length ∧
    (generateBatchPDF optsEnSkip none (renderOf lenMeasure envQrFail) rowsTwo).saved = none :=
  ⟨by decide, by decide, by decide, by decide, rfl⟩

/-- Claim C4 (amended): for a batch of valid records with
skip-on-missing-photo enabled and dual language disabled, provided every
composition call made for the batch's records succeeds, the produced pages are
exactly the records with resolvable photos, in input order, so their count is
N - k where k is the number of unresolvable photos; when a composition aborts,
the run fails and no document is produced. -/
theorem batch_page_count (render : Student → Lang → Except String Unit)
    (rows : List Row) (hv : ∀ r ∈ rows, rowValid r = true)
    (hr : ∀ r ∈ rows, ∀ st, r.parsed = some st → render st Lang.en = Except.ok ()) :
    (generateBatchPDF optsEnSkip none render rows).pages =
      (rows.filter (fun r => r.photo.isSome)).map pageOf ∧
    ((generateBatchPDF optsEnSkip none render rows).pages).length =
      rows.length - (rows.filter (fun r => r.photo.isNone)).length := by
  have hfl := filter_isSome_isNone_length rows
  by_cases hlen : rows.length = 0
  · have hnil : rows = [] := List.length_eq_zero.mp hlen
    subst hnil
    constructor <;> simp [generateBatchPDF]
  · have hpr := processRows_en_skip render rows initialState hv hr
    constructor
    · simp only [generateBatchPDF]
      rw [if_neg hlen, hpr]
      simp [initialState]
    · simp only [generateBatchPDF]
      rw [if_neg hlen, hpr]
      simp [initialState, List.length_map]
      omega

/-- Claim C4 witness: the three-record batch with the middle photo missing,
with every composition call succeeding, produces exactly the two resolvable
pages in order. -/
theorem batch_page_count_witness :
    (generateBatchPDF optsEnSkip none renderAlways rowsThree).pages =
      (rowsThree.filter (fun r => r.photo.isSome)).map pageOf ∧
    ((generateBatchPDF optsEnSkip none renderAlways rowsThree).pages).length =
      rowsThree.length - (rowsThree.filter (fun r => r.photo.isNone)).length :=
  batch_page_count renderAlways rowsThree (by decide) (fun _ _ _ _ => rfl)

/-- Claim C8: a run that reaches the end of its record range without
cancellation and without a thrown error but with zero produced pages ends in
the Completed state (not Failed) and reports no produced document, whatever
the outcome of each composition call. -/
theorem zero_pages_completes (opts : Opts)
    (render : Student → Lang → Except String Unit) (rows : List Row)
    (hnoerr : (generateBatchPDF opts none render rows).errored = none)
    (hzero : (generateBatchPDF opts none render rows).pages = []) :
    (generateBatchPDF opts none render rows).status = RunStatus.completed ∧
    (generateBatchPDF opts none render rows).saved = none := by
  by_cases hlen : rows.length = 0
  · simp [generateBatchPDF, hlen] at hnoerr
  · rcases hps : processRows opts none render rows initialState with ⟨s, err⟩
    cases err with
    | some e => simp [generateBatchPDF, hlen, hps] at hnoerr
    | none =>
      have hcan : s.cancelled = false := by
        have hc := processRows_none_cancelled opts render rows initialState
        rw [hps] at hc
        simpa [initialState] using hc
      have hsp : s.successCount ≤ s.pages.length := by
        have hs2 := processRows_success_le_pages opts none render rows initialState
          (by simp [initialState])
        rw [hps] at hs2
        exact hs2
      have hpagesnil : s.pages = [] := by
        simpa [generateBatchPDF, hlen, hps] using hzero
      have hsc : s.successCount = 0 := by
        rw [hpagesnil] at hsp
        simpa using hsp
      constructor
      · simp [generateBatchPDF, hlen, hps, RunResult.status, hcan]
      · simp [generateBatchPDF, hlen, hps, hsc]

/-- Claim C8 witness: a one-row batch whose only record is invalid produces
zero pages, completes, and reports no document. -/
theorem zero_pages_completes_witness :
    (generateBatchPDF optsEnSkip none renderAlways rowsInvalid).status =
      RunStatus.completed ∧
    (generateBatchPDF optsEnSkip none renderAlways rowsInvalid).saved = none :=
  zero_pages_completes optsEnSkip renderAlways rowsInvalid rfl rfl

/-- Claim C9: starting a run while one is already in flight is a no-op, and
when a run does start, the in-flight flag is false again after every exit
path, whatever the batch, cancellation timing and composition outcomes (the
model folds the try/finally of the source into `startGenerate`). -/
theorem single_run_guard_and_flag_reset :
    (∀ (opts : Opts) (cancelAt : Option Nat)
      (render : Student → Lang → Except String Unit) (rows : List Row),
      startGenerate true opts cancelAt render rows = (true, none)) ∧
    (∀ (opts : Opts) (cancelAt : Option Nat)
      (render : Student → Lang → Except String Unit) (rows : List Row),
      (startGenerate false opts cancelAt render rows).1 = false) :=
  ⟨fun _ _ _ _ => rfl, fun _ _ _ _ => rfl⟩
